import Mathlib

/-!
# Verification of the open-chat-studio-sim batch loops

This development shallowly embeds the three notebook driver loops of the
open-chat-studio-sim repository:

* the fixed-query loop of `simulate-queries.ipynb` (reads `queries_to_run.csv`,
  executes each query against the remote experiment, collects one result row
  per input row);
* the replay loop of `replay-conversations.ipynb` (walks the exported
  conversation rows grouped by contiguous `Session ID`, replaying each
  human/ai exchange against a freshly created session seeded with the
  original prior history);
* the bot-to-bot conversation orchestration used by
  `simulate-conversations.ipynb` (the supporting module
  `ocs_simulation_support.py` is not among the sources at hand, so that
  component is modelled from the specification).

Remote API calls (`create_experiment_session`, `send_new_api_message`) are
modelled by an oracle that assigns, to each processed input row, the outcome
of its session-creation call and of its message-send call: `Except.ok p`
for a successful call with payload `p` and `Except.error msg` for a call
that raises an exception whose message is `msg`.  Theorems quantify over all
oracles.
-/

namespace OcsSim

/-- Outcome of the (up to) two remote API calls made while processing one
input row: the `create_experiment_session` call and the
`send_new_api_message` call.  `Except.error e` models a raised exception
with message `e`. -/
structure ApiBehavior where
  create : Except String String
  send : Except String String

/-- The first exception raised while processing a row with the given API
behaviour, if any: the create call runs first; the send call runs only if
the create call succeeded. -/
def firstFailure (b : ApiBehavior) : Option String :=
  match b.create with
  | Except.error e => some e
  | Except.ok _ =>
    match b.send with
    | Except.error e => some e
    | Except.ok _ => none

/-- The `(session_id, response)` pair after the shared try/except pattern of
both loops (`continue_on_error = True`): the create call sets `session_id`
on success, then the send call's reply becomes the response; a raised
exception is caught and recorded as `"ERROR: " ++ message`.  When the create
call itself fails, `session_id` keeps the value `sidOnCreateFail` it had
before the try block. -/
def sessionAndResponse (b : ApiBehavior) (sidOnCreateFail : String) :
    String × String :=
  match b.create with
  | Except.error e => (sidOnCreateFail, "ERROR: " ++ e)
  | Except.ok sid =>
    match b.send with
    | Except.error e => (sid, "ERROR: " ++ e)
    | Except.ok resp => (sid, resp)

/-! ## Fixed-query loop (`simulate-queries.ipynb`) -/

/-- One row of `queries_to_run.csv`.  Cell values are modelled as strings
(`query_id` cells are passed through Python's `str`, which is the identity
on strings).  A cell field is only consulted when the corresponding column
exists in the table. -/
structure QRow where
  query : String
  queryId : String
  expectedResponse : String
  deriving Repr, DecidableEq

/-- The `queries_to_run` table: its rows plus which optional columns are
present (`row.get` falls back to its default exactly when the column is
absent from the frame). -/
structure QTable where
  rows : List QRow
  hasQueryIdCol : Bool
  hasExpectedCol : Bool
  deriving Repr, DecidableEq

/-- One entry of the `results` list built by the fixed-query loop.
`expected_response` is present in the dict only when the input table has an
`expected_response` column. -/
structure QResult where
  query_id : String
  session_id : String
  query : String
  response : String
  expected_response : Option String
  deriving Repr, DecidableEq

/-- The body of the fixed-query loop for the row at (pandas) index `idx`,
with `continue_on_error = True`:
`query_id = str(row.get("query_id", index+1))`; `session_id` starts as `""`
and the create/send calls run under the shared try/except; finally the
result dict is built, with `expected_response` added only when the input
table has that column. -/
def runQueryRow (oracle : Nat → ApiBehavior) (tbl : QTable) (idx : Nat)
    (row : QRow) : QResult :=
  let sr := sessionAndResponse (oracle idx) ""
  { query_id := if tbl.hasQueryIdCol then row.queryId else toString (idx + 1),
    session_id := sr.1,
    query := row.query,
    response := sr.2,
    expected_response :=
      if tbl.hasExpectedCol then some row.expectedResponse else none }

/-- The fixed-query loop (`for index, row in queries_to_run.iterrows()`),
with `continue_on_error = True`: every row appends exactly one result. -/
def runQueriesGo (oracle : Nat → ApiBehavior) (tbl : QTable) :
    Nat → List QResult → List QRow → List QResult
  | _, acc, [] => acc
  | idx, acc, row :: rs =>
      runQueriesGo oracle tbl (idx + 1) (acc ++ [runQueryRow oracle tbl idx row]) rs

/-- The complete `results` list of the fixed-query loop under
`continue_on_error = True`. -/
def runQueries (oracle : Nat → ApiBehavior) (tbl : QTable) : List QResult :=
  runQueriesGo oracle tbl 0 [] tbl.rows

/-- The output CSV's field names: the base columns, plus `expected_response`
exactly when the input table has that column. -/
def outputFieldnames (tbl : QTable) : List String :=
  ["query_id", "session_id", "query", "response"] ++
    (if tbl.hasExpectedCol then ["expected_response"] else [])

/-- A remote API event, tagged with the (pandas) index of the input row
being processed when the call was issued. -/
inductive ApiEvent where
  | createSession (rowIdx : Nat)
  | sendMessage (rowIdx : Nat)
  deriving Repr, DecidableEq

/-- The row index an API event was issued for. -/
def ApiEvent.rowIdx : ApiEvent → Nat
  | ApiEvent.createSession i => i
  | ApiEvent.sendMessage i => i

/-- The fixed-query loop under `continue_on_error = False`: the first
exception re-raises (`Except.error`), which abandons the loop together with
the accumulated `results` list.  The first component is the trace of remote
API calls issued before the run ended. -/
def runQueriesStrictGo (oracle : Nat → ApiBehavior) (tbl : QTable) :
    Nat → List QResult → List QRow → List ApiEvent × Except String (List QResult)
  | _, acc, [] => ([], Except.ok acc)
  | idx, acc, row :: rs =>
    match (oracle idx).create with
    | Except.error e => ([ApiEvent.createSession idx], Except.error e)
    | Except.ok sid =>
      match (oracle idx).send with
      | Except.error e =>
          ([ApiEvent.createSession idx, ApiEvent.sendMessage idx], Except.error e)
      | Except.ok resp =>
        let res : QResult :=
          { query_id := if tbl.hasQueryIdCol then row.queryId else toString (idx + 1),
            session_id := sid,
            query := row.query,
            response := resp,
            expected_response :=
              if tbl.hasExpectedCol then some row.expectedResponse else none }
        let rest := runQueriesStrictGo oracle tbl (idx + 1) (acc ++ [res]) rs
        (ApiEvent.createSession idx :: ApiEvent.sendMessage idx :: rest.1, rest.2)

/-- The fixed-query loop under `continue_on_error = False`, from the start
of the table. -/
def runQueriesStrict (oracle : Nat → ApiBehavior) (tbl : QTable) :
    List ApiEvent × Except String (List QResult) :=
  runQueriesStrictGo oracle tbl 0 [] tbl.rows

/-! ## JSON serialization (Python's `json.dumps` on a message list)

The replay loop stores `json.dumps(orig_messages)` in each result's
`context` column.  The functions below reproduce `json.dumps` with its
default settings (`ensure_ascii=True`, item separator `", "`, key separator
`": "`) on a list of `{"role": ..., "content": ...}` dicts. -/

/-- Lower-case hexadecimal digit. -/
def hexDigit (n : Nat) : Char :=
  if n < 10 then Char.ofNat (48 + n) else Char.ofNat (97 + (n - 10))

/-- Four-digit lower-case hexadecimal rendering of `n < 0x10000`. -/
def toHex4 (n : Nat) : String :=
  String.mk [hexDigit (n / 4096 % 16), hexDigit (n / 256 % 16),
    hexDigit (n / 16 % 16), hexDigit (n % 16)]

/-- Escaping of one character inside a JSON string literal, after Python's
`json.dumps` with `ensure_ascii=True`: printable ASCII passes through,
quote and backslash get two-character escapes, common control characters
get their short escape, everything else becomes a `\uXXXX` sequence (a
surrogate pair beyond the basic plane). -/
def jsonEscapeChar (c : Char) : String :=
  if c = '"' then "\\\""
  else if c = '\\' then "\\\\"
  else if c = '\n' then "\\n"
  else if c = '\r' then "\\r"
  else if c = '\t' then "\\t"
  else if c.toNat = 8 then "\\b"
  else if c.toNat = 12 then "\\f"
  else if c.toNat < 32 then "\\u" ++ toHex4 c.toNat
  else if c.toNat < 127 then String.singleton c
  else if c.toNat < 65536 then "\\u" ++ toHex4 c.toNat
  else
    "\\u" ++ toHex4 (55296 + (c.toNat - 65536) / 1024) ++
      "\\u" ++ toHex4 (56320 + (c.toNat - 65536) % 1024)

/-- A JSON string literal. -/
def jsonString (s : String) : String :=
  "\"" ++ String.join (s.data.map jsonEscapeChar) ++ "\""

/-- A chat message as carried in `orig_messages`: a dict with keys `role`
and `content`, in that insertion order. -/
structure Msg where
  role : String
  content : String
  deriving Repr, DecidableEq

/-- Serialization (`json.dumps`) of one message dict. -/
def jsonMsg (m : Msg) : String :=
  "\x7b" ++ jsonString "role" ++ ": " ++ jsonString m.role ++ ", " ++
    jsonString "content" ++ ": " ++ jsonString m.content ++ "\x7d"

/-- Serialization (`json.dumps`) of the `orig_messages` list. -/
def json_dumps (ms : List Msg) : String :=
  "[" ++ String.intercalate ", " (ms.map jsonMsg) ++ "]"

/-! ## Replay loop (`replay-conversations.ipynb`) -/

/-- One row of `conversations_to_replay.csv` (the columns the loop relies
on). -/
structure RRow where
  messageId : String
  messageType : String
  messageContent : String
  sessionId : String
  deriving Repr, DecidableEq

/-- One entry of the replay loop's `results` list (one output CSV row). -/
structure RResult where
  message_id : String
  session_id : String
  replay_session_id : String
  query : String
  response : String
  orig_response : String
  context : String
  deriving Repr, DecidableEq

/-- The mutable state of the replay loop.  `creates` is the observable
trace of `create_experiment_session` calls: for each call, the
`orig_messages` seed history passed to it. -/
structure RState where
  results : List RResult
  num_sessions : Nat
  orig_session_id : String
  orig_messages : List Msg
  user_message : String
  user_message_id : String
  session_id : String
  creates : List (List Msg)
  deriving Repr, DecidableEq

/-- The replay loop's state before the first iteration. -/
def initRState : RState :=
  { results := [], num_sessions := 0, orig_session_id := "",
    orig_messages := [], user_message := "", user_message_id := "",
    session_id := "", creates := [] }

/-- The session-boundary reset at the top of the replay loop body: when the
row's `Session ID` differs from the remembered one, re-initialize for a new
conversation. -/
def resetForRow (row : RRow) (st : RState) : RState :=
  if st.orig_session_id ≠ row.sessionId then
    { st with
      orig_session_id := row.sessionId
      orig_messages := []
      user_message := ""
      user_message_id := ""
      num_sessions := st.num_sessions + 1 }
  else st

/-- One iteration of the replay loop with `continue_on_error = True`:
after the session-boundary reset, a `human` row is only remembered; an `ai`
row with a remembered (truthy) user message replays the exchange — a new
session is created seeded with `orig_messages`, the user message is sent,
the result row is appended (`context = json.dumps(orig_messages)` as of
before this exchange), and the original exchange is appended to
`orig_messages`.  On a create failure `session_id` keeps its previous
value, exactly as in the source. -/
def replayStep (oracle : Nat → ApiBehavior) (idx : Nat) (row : RRow)
    (st0 : RState) : RState :=
  let st := resetForRow row st0
  if row.messageType = "human" then
    { st with
      user_message := row.messageContent
      user_message_id := row.messageId }
  else if st.user_message ≠ "" ∧ row.messageType = "ai" then
    let sr := sessionAndResponse (oracle idx) st.session_id
    { st with
      results := st.results ++ [{
        message_id := st.user_message_id,
        session_id := st.orig_session_id,
        replay_session_id := sr.1,
        query := st.user_message,
        response := sr.2,
        orig_response := row.messageContent,
        context := json_dumps st.orig_messages }]
      session_id := sr.1
      creates := st.creates ++ [st.orig_messages]
      orig_messages := st.orig_messages ++
        [{ role := "user", content := st.user_message },
         { role := "assistant", content := row.messageContent }] }
  else st

/-- The replay loop over the remaining rows, with the next pandas index and
the current state. -/
def replayGo (oracle : Nat → ApiBehavior) : Nat → RState → List RRow → RState
  | _, st, [] => st
  | idx, st, row :: rs => replayGo oracle (idx + 1) (replayStep oracle idx row st) rs

/-- The complete replay run over `conversations_to_replay` with
`continue_on_error = True`. -/
def replayRun (oracle : Nat → ApiBehavior) (rows : List RRow) : RState :=
  replayGo oracle 0 initRState rows

/-! ## Reference traversal for the replay loop

An oracle-free reference computation, following the specification's words
for the replay input/output contract: rows are grouped by contiguous
`Session ID`; a `human` row becomes the pending user message; an `ai` row
with a pending (nonempty) user message is a replayed exchange, whose
`context`/seed history is the prior-turn history of the group at the time
of replay — the previously replayed exchanges of the same group, each as a
user/assistant message pair. -/

/-- The data of one replayed exchange in the reference traversal:
identifier and content of the replayed human message, the original AI
response, the group's session identifier, and the prior-turn history at the
time of replay. -/
structure RefEntry where
  message_id : String
  query : String
  orig_response : String
  session_id : String
  history : List Msg
  deriving Repr, DecidableEq

/-- The reference traversal's running state: current group identifier,
pending human message (identifier and content), and the group's
accumulated prior-turn history. -/
structure RefSt where
  gid : String
  pendId : String
  pendMsg : String
  acc : List Msg
  deriving Repr, DecidableEq

/-- Group-boundary reset of the reference traversal. -/
def refReset (row : RRow) (s : RefSt) : RefSt :=
  if s.gid ≠ row.sessionId then
    { gid := row.sessionId, pendId := "", pendMsg := "", acc := [] }
  else s

/-- State evolution of the reference traversal over one row. -/
def refStep (row : RRow) (s0 : RefSt) : RefSt :=
  let s := refReset row s0
  if row.messageType = "human" then
    { s with
      pendId := row.messageId
      pendMsg := row.messageContent }
  else if s.pendMsg ≠ "" ∧ row.messageType = "ai" then
    { s with acc := s.acc ++
        [{ role := "user", content := s.pendMsg },
         { role := "assistant", content := row.messageContent }] }
  else s

/-- The exchanges emitted by the reference traversal at one row: one entry
when the row is an `ai` row with a pending nonempty user message, nothing
otherwise. -/
def refEmit (row : RRow) (s0 : RefSt) : List RefEntry :=
  let s := refReset row s0
  if row.messageType = "human" then []
  else if s.pendMsg ≠ "" ∧ row.messageType = "ai" then
    [{ message_id := s.pendId, query := s.pendMsg,
       orig_response := row.messageContent, session_id := s.gid,
       history := s.acc }]
  else []

/-- The reference traversal: the sequence of replayed exchanges of a row
list, from a given state. -/
def replayRef : RefSt → List RRow → List RefEntry
  | _, [] => []
  | s, row :: rs => refEmit row s ++ replayRef (refStep row s) rs

/-- The reference traversal's state after a list of rows. -/
def refFold (s : RefSt) (xs : List RRow) : RefSt :=
  xs.foldl (fun a r => refStep r a) s

/-- The reference traversal's initial state. -/
def initRefSt : RefSt := { gid := "", pendId := "", pendMsg := "", acc := [] }

/-- The reference-state view of a replay-loop state. -/
def refOfState (st : RState) : RefSt :=
  { gid := st.orig_session_id, pendId := st.user_message_id,
    pendMsg := st.user_message, acc := st.orig_messages }

/-- The oracle-independent fields of a replay result row. -/
def resultKey (r : RResult) : String × String × String × String × String :=
  (r.message_id, r.session_id, r.query, r.orig_response, r.context)

/-- The result-row fields a reference entry determines. -/
def entryKey (e : RefEntry) : String × String × String × String × String :=
  (e.message_id, e.session_id, e.query, e.orig_response, json_dumps e.history)

/-- Number of adjacent human/ai message pairs, following the claimed
grouping: a `human` row immediately followed by an `ai` row of the same
contiguous `Session ID` group counts as one pair. -/
def countHumanAiPairs : List RRow → Nat
  | r1 :: r2 :: rs =>
      (if r1.sessionId = r2.sessionId ∧ r1.messageType = "human" ∧
          r2.messageType = "ai" then 1 else 0) + countHumanAiPairs (r2 :: rs)
  | _ => 0

/-! ## Conversation orchestration (`simulate-conversations.ipynb`)

The notebook calls
`ocs_simulator.exec_simulations(simulations, continue_on_error=True,
max_exchanges=50, ...)` where `OCSBotToBotSimulator` lives in
`ocs_simulation_support.py`, which is not among the sources at hand.  The
orchestration below is therefore modelled from the specification. -/

/-- One simulation's remote behaviour: outcomes of the user-simulator
session creation, of sending the seed context to the user simulator (its
reply is the first query), of the assistant session creation, and — per
exchange index — of the assistant's reply to a query and of the user
simulator's reply to an assistant response. -/
structure SimOracle where
  create_user_session : Except String String
  seed_reply : String → Except String String
  create_assistant_session : Except String String
  assistant_reply : Nat → String → Except String String
  user_reply : Nat → String → Except String String

/-- One recorded exchange of a simulated conversation. -/
structure Turn where
  query : String
  response : String
  deriving Repr, DecidableEq

/-- The outcome of one conversation run. -/
structure ConversationResult where
  spec_id : String
  session_id : String
  turns : List Turn
  terminated_reason : String
  error : Option String
  deriving Repr, DecidableEq

/-- Modelled from the spec: the turn-taking loop of the Conversation
Orchestrator (`ocs_simulation_support.py` is missing from the sources).
Each round sends the current query to the assistant and records the turn;
the conversation ends with reason `"max_exchanges"` once the exchange count
reaches the configured maximum, with reason `"sentinel"` when the user
simulator replies exactly with the sentinel (which is never forwarded as a
query), and — under the continue-on-error policy — with reason `"error"`
after an unrecovered API failure (a failing assistant turn is still
recorded with an error-marker response).  `fuel` is the number of exchanges
still allowed. -/
def simLoop (oracle : SimOracle) (sentinel : String) :
    String → List Turn → Nat → List Turn × String × Option String
  | _, turns, 0 => (turns, "max_exchanges", none)
  | query, turns, fuel + 1 =>
    match oracle.assistant_reply turns.length query with
    | Except.error e =>
        (turns ++ [{ query := query, response := "ERROR: " ++ e }],
         "error", some e)
    | Except.ok resp =>
      let turns' := turns ++ [{ query := query, response := resp }]
      if fuel = 0 then (turns', "max_exchanges", none)
      else
        match oracle.user_reply turns'.length resp with
        | Except.error e => (turns', "error", some e)
        | Except.ok u =>
          if u = sentinel then (turns', "sentinel", none)
          else simLoop oracle sentinel u turns' fuel

/-- Modelled from the spec: one conversation run of the Orchestrator under
the continue-on-error policy (`ocs_simulation_support.py` is missing from
the sources).  A session is created for the user simulator and seeded with
the scenario context; the user simulator's reply becomes the first query;
a session is created for the assistant; then the turn-taking loop runs
with the sentinel `"END"` and at most `maxExchanges` exchanges. -/
def simulateConversation (oracle : SimOracle) (maxExchanges : Nat)
    (specId seedContext : String) : ConversationResult :=
  match oracle.create_user_session with
  | Except.error e =>
      { spec_id := specId, session_id := "", turns := [],
        terminated_reason := "error", error := some e }
  | Except.ok _ =>
  match oracle.seed_reply seedContext with
  | Except.error e =>
      { spec_id := specId, session_id := "", turns := [],
        terminated_reason := "error", error := some e }
  | Except.ok firstQuery =>
  match oracle.create_assistant_session with
  | Except.error e =>
      { spec_id := specId, session_id := "", turns := [],
        terminated_reason := "error", error := some e }
  | Except.ok asid =>
    let out := simLoop oracle "END" firstQuery [] maxExchanges
    { spec_id := specId, session_id := asid, turns := out.1,
      terminated_reason := out.2.1, error := out.2.2 }

/-- Modelled from the spec: the Simulation Runner
(`OCSBotToBotSimulator.exec_simulations`, missing from the sources) under
the continue-on-error policy used by the notebook — one Orchestrator
invocation per `(simulation_id, context)` pair, in order. -/
def exec_simulations (oracles : Nat → SimOracle)
    (simulations : List (String × String)) (maxExchanges : Nat) :
    List ConversationResult :=
  (simulations.enumFrom 0).map
    (fun p => simulateConversation (oracles p.1) maxExchanges p.2.1 p.2.2)

/-- The simulation notebook's configured maximum number of user-AI
exchanges per conversation. -/
def max_exchanges : Nat := 50

/-! ## Concrete inputs used by witnesses and counterexamples -/

/-- An oracle on which every remote call succeeds. -/
def exOracleOk : Nat → ApiBehavior :=
  fun _ => { create := Except.ok "sess-1", send := Except.ok "a fine reply" }

/-- An oracle whose create call fails on the first row and succeeds
afterwards. -/
def exOracleFail0 : Nat → ApiBehavior :=
  fun n =>
    if n = 0 then { create := Except.error "boom", send := Except.ok "r" }
    else { create := Except.ok "sess-2", send := Except.ok "r" }

/-- A three-row fixed-query table with neither optional column. -/
def exTable3 : QTable :=
  { rows := [{ query := "q one", queryId := "", expectedResponse := "" },
             { query := "q two", queryId := "", expectedResponse := "" },
             { query := "q three", queryId := "", expectedResponse := "" }],
    hasQueryIdCol := false, hasExpectedCol := false }

/-- A one-row fixed-query table with both optional columns. -/
def exTableExp : QTable :=
  { rows := [{ query := "q", queryId := "id7", expectedResponse := "exp resp" }],
    hasQueryIdCol := true, hasExpectedCol := true }

/-- A one-row fixed-query table with no `query_id` column. -/
def exTableNoId : QTable :=
  { rows := [{ query := "what is up", queryId := "", expectedResponse := "" }],
    hasQueryIdCol := false, hasExpectedCol := false }

/-- A replay table with one contiguous session holding one human message
followed by two consecutive ai messages. -/
def exReplayDoubleAi : List RRow :=
  [{ messageId := "m1", messageType := "human", messageContent := "hello",
     sessionId := "s1" },
   { messageId := "m2", messageType := "ai", messageContent := "first answer",
     sessionId := "s1" },
   { messageId := "m3", messageType := "ai", messageContent := "second answer",
     sessionId := "s1" }]

/-- A replay table where the first human message is immediately followed by
another human message. -/
def exReplayTwoHumans : List RRow :=
  [{ messageId := "m1", messageType := "human", messageContent := "first ask",
     sessionId := "s1" },
   { messageId := "m2", messageType := "human", messageContent := "second ask",
     sessionId := "s1" },
   { messageId := "m3", messageType := "ai", messageContent := "answer",
     sessionId := "s1" }]

/-- A simulation oracle that always succeeds and never emits the
sentinel. -/
def exSimOracle : SimOracle :=
  { create_user_session := Except.ok "user-sess",
    seed_reply := fun _ => Except.ok "opening question",
    create_assistant_session := Except.ok "asst-sess",
    assistant_reply := fun _ _ => Except.ok "an answer",
    user_reply := fun _ _ => Except.ok "a follow-up" }

/-! ## Helper lemmas: fixed-query loop -/

lemma runQueriesGo_eq_append (oracle : Nat → ApiBehavior) (tbl : QTable) :
    ∀ (rs : List QRow) (idx : Nat) (acc : List QResult),
      runQueriesGo oracle tbl idx acc rs = acc ++ runQueriesGo oracle tbl idx [] rs := by
  intro rs
  induction rs with
  | nil => intro idx acc; simp [runQueriesGo]
  | cons row rs ih =>
      intro idx acc
      rw [runQueriesGo, runQueriesGo,
        ih (idx + 1) (acc ++ [runQueryRow oracle tbl idx row]),
        ih (idx + 1) ([] ++ [runQueryRow oracle tbl idx row])]
      simp

/-- The continue-on-error fixed-query loop is index-wise: it maps
`runQueryRow` over the rows paired with their pandas indices. -/
lemma runQueriesGo_eq_map (oracle : Nat → ApiBehavior) (tbl : QTable) :
    ∀ (rs : List QRow) (idx : Nat),
      runQueriesGo oracle tbl idx [] rs =
        (rs.enumFrom idx).map (fun p => runQueryRow oracle tbl p.1 p.2) := by
  intro rs
  induction rs with
  | nil => intro idx; simp [runQueriesGo, List.enumFrom]
  | cons row rs ih =>
      intro idx
      rw [runQueriesGo, runQueriesGo_eq_append oracle tbl rs (idx + 1), ih (idx + 1)]
      simp [List.enumFrom]

/-- The loop `runQueries` as a map over the enumerated rows. -/
lemma runQueries_eq_map (oracle : Nat → ApiBehavior) (tbl : QTable) :
    runQueries oracle tbl =
      (tbl.rows.enumFrom 0).map (fun p => runQueryRow oracle tbl p.1 p.2) := by
  rw [runQueries, runQueriesGo_eq_map]

lemma runQueries_length (oracle : Nat → ApiBehavior) (tbl : QTable) :
    (runQueries oracle tbl).length = tbl.rows.length := by
  rw [runQueries_eq_map]
  simp

/-- Index access into the results: the `i`-th result is `runQueryRow` on the
`i`-th row. -/
lemma runQueries_get (oracle : Nat → ApiBehavior) (tbl : QTable) (i : Nat)
    (h : i < (runQueries oracle tbl).length) :
    (runQueries oracle tbl).get ⟨i, h⟩ =
      runQueryRow oracle tbl i (tbl.rows.get ⟨i, by
        rw [← runQueries_length oracle tbl]; exact h⟩) := by
  simp only [runQueries_eq_map, List.get_eq_getElem, List.getElem_map,
    List.getElem_enumFrom]
  simp

/-- Mapping a function of the element over an enumerated list forgets the
indices. -/
lemma enumFrom_map_snd {α β : Type} (g : α → β) :
    ∀ (rs : List α) (idx : Nat),
      (rs.enumFrom idx).map (fun p => g p.2) = rs.map g := by
  intro rs
  induction rs with
  | nil => intro idx; simp [List.enumFrom]
  | cons a as ih => intro idx; simp [List.enumFrom, ih (idx + 1)]

/-- When a row's API behaviour fails, the caught-and-recorded response is
the error marker, whatever `session_id` fallback is in force. -/
lemma sessionAndResponse_of_failure {b : ApiBehavior} {e : String}
    (h : firstFailure b = some e) (s : String) :
    (sessionAndResponse b s).2 = "ERROR: " ++ e := by
  unfold firstFailure at h
  unfold sessionAndResponse
  cases hc : b.create with
  | error e' => rw [hc] at h; simp only [Option.some.injEq] at h; simp [h]
  | ok sid =>
    rw [hc] at h
    cases hs : b.send with
    | error e' => rw [hs] at h; simp only [Option.some.injEq] at h; simp [h]
    | ok r => rw [hs] at h; simp at h

/-- When a row's API behaviour succeeds outright, the recorded pair is the
returned session id and response. -/
lemma sessionAndResponse_of_success {b : ApiBehavior} {sid resp : String}
    (hc : b.create = Except.ok sid) (hs : b.send = Except.ok resp)
    (s : String) : sessionAndResponse b s = (sid, resp) := by
  unfold sessionAndResponse
  rw [hc, hs]

/-! ## Claim theorems: fixed-query loop -/

/-- C5: for every fixed-query input of n rows processed under
`continue_on_error`, the results list contains exactly one entry per input
row, appended in input order: no row is silently dropped and no row yields
more than one result entry (the results' query column is exactly the input
rows' query column, in order). -/
theorem query_batch_one_result_per_row (oracle : Nat → ApiBehavior)
    (tbl : QTable) :
    (runQueries oracle tbl).length = tbl.rows.length ∧
    (runQueries oracle tbl).map (fun r => r.query) =
      tbl.rows.map (fun r => r.query) := by
  refine ⟨runQueries_length oracle tbl, ?_⟩
  rw [runQueries_eq_map, List.map_map]
  have hcomp : ((fun r : QResult => r.query) ∘
      fun p : Nat × QRow => runQueryRow oracle tbl p.1 p.2) =
      fun p : Nat × QRow => p.2.query := by
    funext p; rfl
  rw [hcomp]
  exact enumFrom_map_snd (fun r => r.query) tbl.rows 0

/-- C3: under `continue_on_error = True`, the batch always completes with
one result per row, and every row whose remote call raises an exception has
its recorded response replaced by the error-marker string `"ERROR: "`
followed by the exception's message. -/
theorem continue_on_error_records_and_completes (oracle : Nat → ApiBehavior)
    (tbl : QTable) :
    (runQueries oracle tbl).length = tbl.rows.length ∧
    ∀ (i : Nat) (hi : i < (runQueries oracle tbl).length) (e : String),
      firstFailure (oracle i) = some e →
      ((runQueries oracle tbl).get ⟨i, hi⟩).response = "ERROR: " ++ e := by
  refine ⟨runQueries_length oracle tbl, ?_⟩
  intro i hi e hfail
  rw [runQueries_get]
  exact sessionAndResponse_of_failure hfail ""

/-- The three-row example batch is nonempty. -/
lemma exFail3_len_pos : 0 < (runQueries exOracleFail0 exTable3).length := by
  decide

/-- C3 witness: on the concrete three-row batch whose first create call
fails with message `"boom"`, all three rows are recorded and the first
row's response is the error marker. -/
theorem continue_on_error_witness :
    (runQueries exOracleFail0 exTable3).length = exTable3.rows.length ∧
    ((runQueries exOracleFail0 exTable3).get ⟨0, exFail3_len_pos⟩).response =
      "ERROR: " ++ "boom" := by
  refine ⟨(continue_on_error_records_and_completes exOracleFail0 exTable3).1, ?_⟩
  exact (continue_on_error_records_and_completes exOracleFail0 exTable3).2
    0 exFail3_len_pos "boom" rfl

/-- The generalized fail-fast property: starting the strict loop at pandas
index `idx`, if every row before the absolute index `i` succeeds and row
`i` fails with message `e`, the run returns `Except.error e` and issues no
API call for any row after `i`. -/
lemma runQueriesStrictGo_error (oracle : Nat → ApiBehavior) (tbl : QTable) :
    ∀ (rs : List QRow) (idx : Nat) (acc : List QResult) (i : Nat) (e : String),
      idx ≤ i → i < idx + rs.length →
      (∀ j, idx ≤ j → j < i → firstFailure (oracle j) = none) →
      firstFailure (oracle i) = some e →
      (runQueriesStrictGo oracle tbl idx acc rs).2 = Except.error e ∧
      ∀ ev ∈ (runQueriesStrictGo oracle tbl idx acc rs).1, ev.rowIdx ≤ i := by
  intro rs
  induction rs with
  | nil =>
      intro idx acc i e h1 h2 _ _
      exact absurd h2 (by simp; omega)
  | cons row rs ih =>
      intro idx acc i e hle hlt hpre hfail
      by_cases hcase : idx = i
      · subst hcase
        unfold firstFailure at hfail
        unfold runQueriesStrictGo
        cases hc : (oracle idx).create with
        | error e' =>
            rw [hc] at hfail
            simp only [Option.some.injEq] at hfail
            subst hfail
            simp [ApiEvent.rowIdx]
        | ok sid =>
            rw [hc] at hfail
            cases hs : (oracle idx).send with
            | error e' =>
                rw [hs] at hfail
                simp only [Option.some.injEq] at hfail
                subst hfail
                simp [ApiEvent.rowIdx]
            | ok resp => rw [hs] at hfail; simp at hfail
      · have hidx : idx < i := lt_of_le_of_ne hle hcase
        have hnone := hpre idx le_rfl hidx
        unfold firstFailure at hnone
        cases hc : (oracle idx).create with
        | error e' => rw [hc] at hnone; simp at hnone
        | ok sid =>
            rw [hc] at hnone
            cases hs : (oracle idx).send with
            | error e' => rw [hs] at hnone; simp at hnone
            | ok resp =>
                unfold runQueriesStrictGo
                rw [hc, hs]
                have hih := ih (idx + 1) (acc ++ [{
                    query_id := if tbl.hasQueryIdCol then row.queryId
                      else toString (idx + 1),
                    session_id := sid, query := row.query, response := resp,
                    expected_response := if tbl.hasExpectedCol then
                      some row.expectedResponse else none }]) i e
                  (by omega) (by simp at hlt ⊢; omega)
                  (fun j hj1 hj2 => hpre j (by omega) hj2) hfail
                refine ⟨hih.1, ?_⟩
                intro ev hev
                simp only [List.mem_cons] at hev
                rcases hev with h | h | h
                · subst h; simp [ApiEvent.rowIdx]; omega
                · subst h; simp [ApiEvent.rowIdx]; omega
                · exact hih.2 ev h

/-- C4: when `continue_on_error` is false, the first exception raised by a
remote API call propagates to the caller as the run's outcome — the
accumulated results are abandoned (`Except.error` carries none of them) —
and no API call is issued for any later row. -/
theorem failfast_aborts_on_first_error (oracle : Nat → ApiBehavior)
    (tbl : QTable) (i : Nat) (e : String)
    (hi : i < tbl.rows.length)
    (hpre : ∀ j, j < i → firstFailure (oracle j) = none)
    (hfail : firstFailure (oracle i) = some e) :
    (runQueriesStrict oracle tbl).2 = Except.error e ∧
    ∀ ev ∈ (runQueriesStrict oracle tbl).1, ev.rowIdx ≤ i :=
  runQueriesStrictGo_error oracle tbl tbl.rows 0 [] i e (Nat.zero_le i)
    (by simpa using hi) (fun j _ hj => hpre j hj) hfail

/-- C4 witness: on the concrete three-row batch whose first create call
fails with `"boom"`, the strict run returns the error and only the single
failing create call was issued. -/
theorem failfast_witness :
    (runQueriesStrict exOracleFail0 exTable3).2 = Except.error "boom" ∧
    (runQueriesStrict exOracleFail0 exTable3).1 = [ApiEvent.createSession 0] := by
  refine ⟨(failfast_aborts_on_first_error exOracleFail0 exTable3 0 "boom"
    (by decide) (fun j hj => absurd hj (Nat.not_lt_zero j)) rfl).1, by decide⟩

/-- The one-row example batch without a `query_id` column is nonempty. -/
lemma exNoId_len_pos : 0 < (runQueries exOracleOk exTableNoId).length := by
  decide

/-- C8 counterexample: on a one-row table with no `query_id` column, the
recorded `query_id` is `"1"`, not the row's index `0` (whose string form is
`"0"`): the default is the 1-based row number, not the index. -/
theorem query_id_default_cex :
    ((runQueries exOracleOk exTableNoId).get ⟨0, exNoId_len_pos⟩).query_id = "1" ∧
    ((runQueries exOracleOk exTableNoId).get ⟨0, exNoId_len_pos⟩).query_id ≠ "0" := by
  constructor <;> decide

/-- C8 amended: for every fixed-query input row that supplies no `query_id`
value, the `query_id` recorded in that row's result equals the string form
of the row's index plus one (the 1-based row number). -/
theorem query_id_defaults_to_row_number (oracle : Nat → ApiBehavior)
    (tbl : QTable) (i : Nat) (hi : i < (runQueries oracle tbl).length)
    (hcol : tbl.hasQueryIdCol = false) :
    ((runQueries oracle tbl).get ⟨i, hi⟩).query_id = toString (i + 1) := by
  rw [runQueries_get]
  simp [runQueryRow, hcol]

/-- C8 witness: the amended default applies to the concrete one-row
table. -/
theorem query_id_defaults_witness :
    ((runQueries exOracleOk exTableNoId).get ⟨0, exNoId_len_pos⟩).query_id =
      toString (0 + 1) :=
  query_id_defaults_to_row_number exOracleOk exTableNoId 0 exNoId_len_pos rfl

/-- C9: a fixed-query batch of 3 rows with no `expected_response` column,
all of whose remote calls succeed (with nonempty session identifiers),
yields exactly 3 output rows, each with a nonempty `session_id` and no
`expected_response` entry, and the output field names omit
`expected_response`; conversely, when the input has an `expected_response`
column, its values are passed through unchanged into the output rows. -/
theorem fixed_query_output_shape :
    (∀ (oracle : Nat → ApiBehavior) (tbl : QTable),
      tbl.rows.length = 3 → tbl.hasExpectedCol = false →
      (∀ n, ∃ sid resp, (oracle n).create = Except.ok sid ∧ sid ≠ "" ∧
        (oracle n).send = Except.ok resp) →
      (runQueries oracle tbl).length = 3 ∧
      (∀ r ∈ runQueries oracle tbl, r.session_id ≠ "" ∧
        r.expected_response = none) ∧
      outputFieldnames tbl = ["query_id", "session_id", "query", "response"]) ∧
    (∀ (oracle : Nat → ApiBehavior) (tbl : QTable),
      tbl.hasExpectedCol = true →
      (runQueries oracle tbl).map (fun r => r.expected_response) =
        tbl.rows.map (fun row => some row.expectedResponse)) := by
  constructor
  · intro oracle tbl h3 hexp hok
    refine ⟨by rw [runQueries_length, h3], ?_, ?_⟩
    · intro r hr
      rw [runQueries_eq_map] at hr
      obtain ⟨p, _, rfl⟩ := List.mem_map.mp hr
      obtain ⟨sid, resp, hc, hsid, hs⟩ := hok p.1
      constructor
      · show (sessionAndResponse (oracle p.1) "").1 ≠ ""
        rw [sessionAndResponse_of_success hc hs]
        exact hsid
      · show (if tbl.hasExpectedCol then some p.2.expectedResponse else none) = none
        rw [hexp]
        simp
    · simp [outputFieldnames, hexp]
  · intro oracle tbl htrue
    rw [runQueries_eq_map, List.map_map]
    have hcomp : ((fun r : QResult => r.expected_response) ∘
        fun p : Nat × QRow => runQueryRow oracle tbl p.1 p.2) =
        fun p : Nat × QRow =>
          (if tbl.hasExpectedCol then some p.2.expectedResponse else none) := by
      funext p; rfl
    rw [hcomp, htrue]
    simp only [if_pos]
    exact enumFrom_map_snd (fun row => some row.expectedResponse) tbl.rows 0

/-- C9 witness: both halves at concrete inputs — the three-row table with
neither optional column under the all-success oracle, and the one-row table
with an `expected_response` column. -/
theorem fixed_query_output_shape_witness :
    (runQueries exOracleOk exTable3).length = 3 ∧
    outputFieldnames exTable3 = ["query_id", "session_id", "query", "response"] ∧
    (runQueries exOracleOk exTableExp).map (fun r => r.expected_response) =
      [some "exp resp"] := by
  have h1 := fixed_query_output_shape.1 exOracleOk exTable3 rfl rfl
    (fun n => ⟨"sess-1", "a fine reply", rfl, by decide, rfl⟩)
  have h2 := fixed_query_output_shape.2 exOracleOk exTableExp rfl
  exact ⟨h1.1, h1.2.2, h2⟩

/-! ## Helper lemmas: replay loop vs. reference traversal -/

/-- The session-boundary reset agrees with the reference traversal's
group-boundary reset. -/
lemma refOfState_resetForRow (row : RRow) (st : RState) :
    refOfState (resetForRow row st) = refReset row (refOfState st) := by
  by_cases h : st.orig_session_id ≠ row.sessionId
  · simp [resetForRow, refReset, refOfState, h]
  · simp [resetForRow, refReset, refOfState, h]

/-- The reset changes neither the results nor the create trace. -/
lemma resetForRow_results (row : RRow) (st : RState) :
    (resetForRow row st).results = st.results ∧
    (resetForRow row st).creates = st.creates := by
  unfold resetForRow
  split <;> exact ⟨rfl, rfl⟩

/-- One replay iteration agrees with the reference traversal: the
reference-state view evolves by `refStep`, and the oracle-independent
fields of the appended results (and the seed histories of the created
sessions) are the emitted reference entries. -/
lemma replayStep_spec (oracle : Nat → ApiBehavior) (idx : Nat) (row : RRow)
    (st : RState) :
    refOfState (replayStep oracle idx row st) = refStep row (refOfState st) ∧
    (replayStep oracle idx row st).results.map resultKey =
      st.results.map resultKey ++ (refEmit row (refOfState st)).map entryKey ∧
    (replayStep oracle idx row st).creates =
      st.creates ++ (refEmit row (refOfState st)).map RefEntry.history := by
  have h0 := refOfState_resetForRow row st
  have h1 := resetForRow_results row st
  unfold replayStep refStep refEmit
  rw [← h0]
  by_cases hh : row.messageType = "human"
  · simp [hh, refOfState, h1.1, h1.2]
  · by_cases hc : (resetForRow row st).user_message ≠ "" ∧ row.messageType = "ai"
    · have hc' : (refOfState (resetForRow row st)).pendMsg ≠ "" ∧
          row.messageType = "ai" := by
        simpa [refOfState] using hc
      simp [hh, hc, hc', refOfState, h1.1, h1.2, resultKey, entryKey]
    · have hc' : ¬ ((refOfState (resetForRow row st)).pendMsg ≠ "" ∧
          row.messageType = "ai") := by
        simpa [refOfState] using hc
      simp [hh, hc, hc', refOfState, h1.1, h1.2]

/-- The whole replay run agrees with the reference traversal: the
oracle-independent fields of the results, and the seed histories of the
created sessions, are exactly the reference traversal's entries. -/
lemma replayGo_spec (oracle : Nat → ApiBehavior) :
    ∀ (rows : List RRow) (idx : Nat) (st : RState),
      (replayGo oracle idx st rows).results.map resultKey =
        st.results.map resultKey ++ (replayRef (refOfState st) rows).map entryKey ∧
      (replayGo oracle idx st rows).creates =
        st.creates ++ (replayRef (refOfState st) rows).map RefEntry.history := by
  intro rows
  induction rows with
  | nil => intro idx st; simp [replayGo, replayRef]
  | cons row rs ih =>
      intro idx st
      obtain ⟨h1, h2, h3⟩ := replayStep_spec oracle idx row st
      obtain ⟨ih1, ih2⟩ := ih (idx + 1) (replayStep oracle idx row st)
      rw [replayGo, replayRef]
      constructor
      · rw [ih1, h1, h2, List.map_append, List.append_assoc]
      · rw [ih2, h1, h3, List.map_append, List.append_assoc]

/-- The bridge `replayGo_spec` specialized to the initial state. -/
lemma replayRun_spec (oracle : Nat → ApiBehavior) (rows : List RRow) :
    (replayRun oracle rows).results.map resultKey =
      (replayRef initRefSt rows).map entryKey ∧
    (replayRun oracle rows).creates =
      (replayRef initRefSt rows).map RefEntry.history := by
  obtain ⟨h1, h2⟩ := replayGo_spec oracle rows 0 initRState
  constructor
  · simpa [replayRun, initRState, refOfState, initRefSt] using h1
  · simpa [replayRun, initRState, refOfState, initRefSt] using h2

/-! ## Claim theorems: replay loop -/

/-- C1 counterexample: on the single-session input
`[human, ai, ai]`, the replay loop produces 2 result rows while the input
holds only 1 adjacent human/ai message pair — a second consecutive `ai`
row replays the same (stale) human message again, even though it is not
immediately paired with a preceding `human` row. -/
theorem replay_pair_count_cex :
    (replayRun exOracleOk exReplayDoubleAi).results.length = 2 ∧
    countHumanAiPairs exReplayDoubleAi = 1 := by
  constructor <;> decide

/-- C1 amended: for every replay-mode input table and every oracle, the
result rows' identifying fields (`message_id`, `session_id`, `query`,
`orig_response`, `context`) are exactly, and in order, those computed by
the oracle-free reference traversal — one result row per `ai`-type row
whose contiguous `Session ID` group has a pending nonempty human message
(the most recent one, which consecutive `ai` rows re-use); for groups that
strictly alternate human/ai this count is the number of human/ai pairs. -/
theorem replay_rows_match_reference (oracle : Nat → ApiBehavior)
    (rows : List RRow) :
    (replayRun oracle rows).results.map resultKey =
      (replayRef initRefSt rows).map entryKey ∧
    (replayRun oracle rows).results.length = (replayRef initRefSt rows).length := by
  have h := (replayRun_spec oracle rows).1
  refine ⟨h, ?_⟩
  have := congrArg List.length h
  simpa using this

/-- C7: every replay result row's `context` field is the JSON serialization
of exactly the seed history passed to that row's session-creation call, and
those seed histories are exactly the reference traversal's prior-turn
histories — the human/assistant pairs of the exchanges replayed earlier in
the same contiguous session group, excluding the exchange being replayed
itself. -/
theorem replay_context_equals_seed_history (oracle : Nat → ApiBehavior)
    (rows : List RRow) :
    (replayRun oracle rows).results.map (fun r => r.context) =
      (replayRun oracle rows).creates.map json_dumps ∧
    (replayRun oracle rows).creates =
      (replayRef initRefSt rows).map RefEntry.history := by
  obtain ⟨h1, h2⟩ := replayRun_spec oracle rows
  constructor
  · have hctx : (replayRun oracle rows).results.map (fun r => r.context) =
        ((replayRun oracle rows).results.map resultKey).map
          (fun k => k.2.2.2.2) := by
      rw [List.map_map]; rfl
    rw [hctx, h1, h2, List.map_map, List.map_map]
    rfl
  · exact h2

/-- C10: the original-history accumulation is oracle-independent — whatever
remote failures occur (under continue-on-error), the seed histories passed
to the created replay sessions, and all oracle-independent result fields
(`message_id`, `session_id`, `query`, `orig_response`, `context`), are
identical to those of a run where every call succeeds: one turn's failure
never changes the seed history of later turns. -/
theorem replay_seed_history_oracle_independent (o1 o2 : Nat → ApiBehavior)
    (rows : List RRow) :
    (replayRun o1 rows).creates = (replayRun o2 rows).creates ∧
    (replayRun o1 rows).results.map resultKey =
      (replayRun o2 rows).results.map resultKey := by
  obtain ⟨a1, a2⟩ := replayRun_spec o1 rows
  obtain ⟨b1, b2⟩ := replayRun_spec o2 rows
  exact ⟨a2.trans b2.symm, a1.trans b1.symm⟩

/-! ## Helper lemmas: unpaired human messages (C6) -/

lemma refFold_cons (s : RefSt) (x : RRow) (xs : List RRow) :
    refFold s (x :: xs) = refFold (refStep x s) xs := rfl

/-- The reference traversal splits over list concatenation. -/
lemma replayRef_append :
    ∀ (xs : List RRow) (s : RefSt) (ys : List RRow),
      replayRef s (xs ++ ys) =
        replayRef s xs ++ replayRef (refFold s xs) ys := by
  intro xs
  induction xs with
  | nil => intro s ys; simp [replayRef, refFold]
  | cons x xs ih =>
      intro s ys
      rw [List.cons_append, replayRef, replayRef, ih (refStep x s) ys,
        refFold_cons, List.append_assoc]

/-- After the group-boundary reset, the state's group identifier is the
row's `Session ID`. -/
lemma refReset_gid (row : RRow) (s : RefSt) :
    (refReset row s).gid = row.sessionId := by
  by_cases h : s.gid = row.sessionId
  · simp [refReset, h]
  · simp [refReset, h]

/-- The reference step leaves the state's group identifier at the row's
`Session ID`. -/
lemma refStep_gid (row : RRow) (s : RefSt) :
    (refStep row s).gid = row.sessionId := by
  by_cases hh : row.messageType = "human"
  · simp [refStep, hh, refReset_gid]
  · by_cases hc : (refReset row s).pendMsg ≠ "" ∧ row.messageType = "ai"
    · simp [refStep, hh, hc, refReset_gid]
    · simp [refStep, hh, hc, refReset_gid]

/-- A human row installs its identifier and content as the pending user
message. -/
lemma refStep_pend_human (row : RRow) (s : RefSt)
    (h : row.messageType = "human") :
    (refStep row s).pendId = row.messageId ∧
    (refStep row s).pendMsg = row.messageContent := by
  simp [refStep, h]

/-- A non-human row of the current group leaves the pending user message in
place. -/
lemma refStep_pend_keep (row : RRow) (s : RefSt)
    (h1 : row.messageType ≠ "human") (h2 : s.gid = row.sessionId) :
    (refStep row s).pendId = s.pendId ∧ (refStep row s).pendMsg = s.pendMsg := by
  have hr : refReset row s = s := by simp [refReset, h2]
  unfold refStep
  rw [hr]
  simp only [h1, if_false]
  split
  · exact ⟨rfl, rfl⟩
  · exact ⟨rfl, rfl⟩

/-- A non-human row of a new group leaves the pending user message
empty. -/
lemma refStep_pendMsg_reset (row : RRow) (s : RefSt)
    (h1 : row.messageType ≠ "human") (h2 : s.gid ≠ row.sessionId) :
    (refStep row s).pendMsg = "" := by
  have hr : refReset row s =
      { gid := row.sessionId, pendId := "", pendMsg := "", acc := [] } := by
    simp [refReset, h2]
  unfold refStep
  rw [hr]
  simp [h1]

/-- A human row emits no reference entry. -/
lemma refEmit_human (row : RRow) (s : RefSt) (h : row.messageType = "human") :
    refEmit row s = [] := by
  simp [refEmit, h]

/-- A row opening a new group emits no reference entry. -/
lemma refEmit_new_group (row : RRow) (s : RefSt)
    (h : s.gid ≠ row.sessionId) : refEmit row s = [] := by
  have hr : refReset row s =
      { gid := row.sessionId, pendId := "", pendMsg := "", acc := [] } := by
    simp [refReset, h]
  unfold refEmit
  rw [hr]
  simp

/-- Every reference entry's `message_id` is either the pending user
message's identifier (when one is pending) or the identifier of some human
row of the traversed list. -/
lemma replayRef_entry_mid :
    ∀ (ys : List RRow) (s : RefSt) (e : RefEntry), e ∈ replayRef s ys →
      (s.pendMsg ≠ "" ∧ e.message_id = s.pendId) ∨
      ∃ r ∈ ys, r.messageType = "human" ∧ e.message_id = r.messageId := by
  intro ys
  induction ys with
  | nil => intro s e he; simp [replayRef] at he
  | cons row rs ih =>
      intro s e he
      rw [replayRef] at he
      rcases List.mem_append.mp he with h | h
      · by_cases hh : row.messageType = "human"
        · rw [refEmit_human row s hh] at h
          simp at h
        · by_cases hg : s.gid ≠ row.sessionId
          · rw [refEmit_new_group row s hg] at h
            simp at h
          · have hg' : s.gid = row.sessionId := not_not.mp hg
            have hr : refReset row s = s := by simp [refReset, hg']
            unfold refEmit at h
            rw [hr] at h
            simp only [hh, if_false] at h
            by_cases hc : s.pendMsg ≠ "" ∧ row.messageType = "ai"
            · rw [if_pos hc] at h
              simp only [List.mem_singleton] at h
              subst h
              exact Or.inl ⟨hc.1, rfl⟩
            · rw [if_neg hc] at h
              simp at h
      · rcases ih (refStep row s) e h with ⟨hm, hid⟩ | ⟨r, hr, hrh, hid⟩
        · by_cases hh : row.messageType = "human"
          · right
            refine ⟨row, List.mem_cons_self row rs, hh, ?_⟩
            rw [hid, (refStep_pend_human row s hh).1]
          · by_cases hg : s.gid ≠ row.sessionId
            · exact absurd (refStep_pendMsg_reset row s hh hg) hm
            · have hg' : s.gid = row.sessionId := not_not.mp hg
              obtain ⟨hk1, hk2⟩ := refStep_pend_keep row s hh hg'
              left
              rw [hk2] at hm
              rw [hk1] at hid
              exact ⟨hm, hid⟩
        · exact Or.inr ⟨r, List.mem_cons_of_mem row hr, hrh, hid⟩

/-- C6: a human message with no following ai message — because its
contiguous `Session ID` group ends there, or because the next row is
another human message — produces no replay: no result row carries its
`Message ID` (assuming that id is not shared with other rows), and no
session is created for it (sessions are created exactly one per emitted
result row). -/
theorem unpaired_human_not_replayed (oracle : Nat → ApiBehavior)
    (l₁ : List RRow) (rowI : RRow) (l₂ : List RRow)
    (hhuman : rowI.messageType = "human")
    (hnext : l₂ = [] ∨ ∃ r l₃, l₂ = r :: l₃ ∧
      (r.sessionId ≠ rowI.sessionId ∨ r.messageType = "human"))
    (hids1 : ∀ r ∈ l₁, r.messageId ≠ rowI.messageId)
    (hids2 : ∀ r ∈ l₂, r.messageId ≠ rowI.messageId) :
    (∀ res ∈ (replayRun oracle (l₁ ++ rowI :: l₂)).results,
      res.message_id ≠ rowI.messageId) ∧
    (replayRun oracle (l₁ ++ rowI :: l₂)).creates.length =
      (replayRun oracle (l₁ ++ rowI :: l₂)).results.length := by
  obtain ⟨hb1, hb2⟩ := replayRun_spec oracle (l₁ ++ rowI :: l₂)
  constructor
  · intro res hres
    have hmem : resultKey res ∈
        (replayRun oracle (l₁ ++ rowI :: l₂)).results.map resultKey :=
      List.mem_map_of_mem resultKey hres
    rw [hb1] at hmem
    obtain ⟨e, he, hek⟩ := List.mem_map.mp hmem
    have hmid : res.message_id = e.message_id := by
      have := congrArg (fun k => k.1) hek
      simpa [entryKey, resultKey] using this.symm
    rw [hmid]
    rw [replayRef_append l₁ initRefSt (rowI :: l₂)] at he
    rcases List.mem_append.mp he with hA | hB
    · rcases replayRef_entry_mid l₁ initRefSt e hA with ⟨hm, _⟩ | ⟨r, hr, _, hid⟩
      · exact absurd rfl hm
      · rw [hid]; exact hids1 r hr
    · rw [replayRef, refEmit_human rowI _ hhuman, List.nil_append] at hB
      have hp2 := refStep_pend_human rowI (refFold initRefSt l₁) hhuman
      have hg2 := refStep_gid rowI (refFold initRefSt l₁)
      rcases hnext with rfl | ⟨r, l₃, rfl, hcond⟩
      · simp [replayRef] at hB
      · rw [replayRef] at hB
        rcases List.mem_append.mp hB with hE | hT
        · rcases hcond with hsess | hrh
          · rw [refEmit_new_group r _ (by rw [hg2]; exact Ne.symm hsess)] at hE
            simp at hE
          · rw [refEmit_human r _ hrh] at hE
            simp at hE
        · rcases replayRef_entry_mid l₃
              (refStep r (refStep rowI (refFold initRefSt l₁))) e hT with
            ⟨hm, hid⟩ | ⟨r', hr', _, hid⟩
          · by_cases hrh : r.messageType = "human"
            · rw [hid, (refStep_pend_human r _ hrh).1]
              exact hids2 r (List.mem_cons_self r l₃)
            · rcases hcond with hsess | hrh'
              · exact absurd (refStep_pendMsg_reset r _ hrh
                  (by rw [hg2]; exact Ne.symm hsess)) hm
              · exact absurd hrh' hrh
          · rw [hid]
            exact hids2 r' (List.mem_cons_of_mem r hr')
  · have e1 := congrArg List.length hb1
    have e2 := congrArg List.length hb2
    simp only [List.length_map] at e1 e2
    rw [e1, e2]

/-- The two-consecutive-humans replay example produces at least one
result. -/
lemma exTwoHumans_len_pos :
    0 < (replayRun exOracleOk exReplayTwoHumans).results.length := by
  decide

/-- C6 witness: in the concrete session `[human m1, human m2, ai m3]`, the
first human message (immediately followed by another human message) is
never replayed — the produced result does not carry its id. -/
theorem unpaired_human_witness :
    ((replayRun exOracleOk exReplayTwoHumans).results.get
      ⟨0, exTwoHumans_len_pos⟩).message_id ≠ "m1" := by
  have h := (unpaired_human_not_replayed exOracleOk []
    { messageId := "m1", messageType := "human", messageContent := "first ask",
      sessionId := "s1" }
    [{ messageId := "m2", messageType := "human",
       messageContent := "second ask", sessionId := "s1" },
     { messageId := "m3", messageType := "ai", messageContent := "answer",
       sessionId := "s1" }]
    rfl
    (Or.inr ⟨_, _, rfl, Or.inr rfl⟩)
    (by simp)
    (by decide)).1
  exact h _ (List.get_mem _ _ _)

/-! ## Claim theorems: conversation orchestration (spec-modelled) -/

/-- Each loop round records at most one turn per unit of remaining fuel. -/
lemma simLoop_length (oracle : SimOracle) (sentinel : String) :
    ∀ (fuel : Nat) (query : String) (turns : List Turn),
      (simLoop oracle sentinel query turns fuel).1.length ≤ turns.length + fuel := by
  intro fuel
  induction fuel with
  | zero => intro query turns; simp [simLoop]
  | succ fuel ih =>
      intro query turns
      rw [simLoop]
      cases ha : oracle.assistant_reply turns.length query with
      | error e => simp
      | ok resp =>
          by_cases hf : fuel = 0
          · simp [hf]
          · simp only [hf, if_false]
            cases hu : oracle.user_reply
                (turns ++ [({ query := query, response := resp } : Turn)]).length
                resp with
            | error e => simp
            | ok u =>
                by_cases hs : u = sentinel
                · simp [hs]
                · simp only [hs, if_false]
                  have h := ih u
                    (turns ++ [({ query := query, response := resp } : Turn)])
                  simp only [List.length_append, List.length_singleton] at h
                  omega

/-- A conversation run never records more turns than the configured
maximum. -/
lemma simulateConversation_turns_le (oracle : SimOracle) (maxExchanges : Nat)
    (specId seedContext : String) :
    (simulateConversation oracle maxExchanges specId seedContext).turns.length ≤
      maxExchanges := by
  unfold simulateConversation
  cases oracle.create_user_session with
  | error e => simp
  | ok uid =>
    cases oracle.seed_reply seedContext with
    | error e => simp
    | ok firstQuery =>
      cases oracle.create_assistant_session with
      | error e => simp
      | ok asid =>
          simpa using simLoop_length oracle "END" maxExchanges firstQuery []

/-- C2: for every conversation run with configured maximum exchange count,
the transcript's turn sequence has length at most that maximum; in the
simulation notebook's configuration (`max_exchanges = 50`), every
simulation result's recorded message list has length at most 50. -/
theorem conversation_turns_bounded :
    (∀ (oracle : SimOracle) (maxExchanges : Nat) (specId seedContext : String),
      (simulateConversation oracle maxExchanges specId seedContext).turns.length ≤
        maxExchanges) ∧
    (∀ (oracles : Nat → SimOracle) (sims : List (String × String)),
      ∀ res ∈ exec_simulations oracles sims max_exchanges,
        res.turns.length ≤ 50) := by
  refine ⟨simulateConversation_turns_le, ?_⟩
  intro oracles sims res hres
  unfold exec_simulations at hres
  obtain ⟨p, _, rfl⟩ := List.mem_map.mp hres
  exact simulateConversation_turns_le (oracles p.1) max_exchanges p.2.1 p.2.2

/-- C2 witness: concrete bounds for the all-success, never-terminating
simulator oracle, both at an arbitrary small maximum and at the notebook's
configured maximum of 50. -/
theorem conversation_turns_bounded_witness :
    (simulateConversation exSimOracle 3 "sim1" "ctx").turns.length ≤ 3 ∧
    (simulateConversation exSimOracle 50 "sim1" "ctx").turns.length ≤ 50 := by
  refine ⟨conversation_turns_bounded.1 exSimOracle 3 "sim1" "ctx", ?_⟩
  exact conversation_turns_bounded.2 (fun _ => exSimOracle) [("sim1", "ctx")]
    (simulateConversation exSimOracle 50 "sim1" "ctx")
    (by simp [exec_simulations, List.enumFrom, max_exchanges])

end OcsSim
